import Mathlib

/-!
Verification of the finetuning/evaluation core of `finetune.py`
(SSL_medicalimaging): the running-stat meter, the two accuracy metrics,
the step-budgeted training loop of `FinetuneModel.tune`, and the
hyperparameter search driver `FinetuneTester.validate` / `evaluate`.

Numeric values carried by the Python code (floats and ints) are embedded
as `ℚ` and `ℕ`; Python exceptions are embedded as explicit error values.
-/

/-! ## AverageMeter (finetune.py lines 31-52) -/

/-- State of `AverageMeter`: the fields `val`, `avg`, `sum`, `count`
mutated by `reset` and `update`. -/
structure AverageMeter where
  val : ℚ
  avg : ℚ
  sum : ℚ
  count : ℕ
  deriving DecidableEq, Repr

/-- The state after `reset()` (lines 38-42): all four fields zero.
`__init__` calls `reset`, so this is also the freshly-constructed state. -/
def AverageMeter.fresh : AverageMeter := ⟨0, 0, 0, 0⟩

/-- The `update(val, n)` method (lines 44-48):
`sum += val * n; count += n; avg = sum / count`.  The division raises
`ZeroDivisionError` in Python when `count` is zero afterwards, which we
embed as `none`. -/
def AverageMeter.update (m : AverageMeter) (v : ℚ) (n : ℕ) : Option AverageMeter :=
  let sum := m.sum + v * (n : ℚ)
  let count := m.count + n
  if count = 0 then none
  else some ⟨v, sum / (count : ℚ), sum, count⟩

/-- A sequence of `update` calls, propagating a raised exception. -/
def applyUpdates (m : AverageMeter) (us : List (ℚ × ℕ)) : Option AverageMeter :=
  us.foldl (fun acc u => acc.bind (fun m => m.update u.1 u.2)) (some m)

/-- Weighted sum of a list of `(value, weight)` updates. -/
def wsum (us : List (ℚ × ℕ)) : ℚ := (us.map (fun u => u.1 * (u.2 : ℚ))).sum

/-- Total weight of a list of `(value, weight)` updates. -/
def wtot (us : List (ℚ × ℕ)) : ℕ := (us.map Prod.snd).sum

/-! ## Metrics (finetune.py lines 55-62) -/

/-- Number of positions where prediction and label agree:
the sum over `pred.eq(label.view_as(pred))` in line 57. -/
def correctCount (pred label : List ℕ) : ℕ :=
  (pred.zip label).countP (fun p => decide (p.1 = p.2))

/-- The class list underlying `sklearn.confusion_matrix(label, pred)`
(line 60): all distinct values occurring in either sequence.  (sklearn
sorts the classes; the order is irrelevant to the mean taken below.) -/
def confusionClasses (pred label : List ℕ) : List ℕ := (label ++ pred).dedup

/-- Row `c` of `cm.diagonal() / cm.sum(axis=1)` (line 61): correct
predictions of class `c` divided by true instances of class `c`.
A zero denominator is NaN in numpy; the claims below only invoke this
under the hypothesis that every class has a true instance. -/
def classRecall (pred label : List ℕ) (c : ℕ) : ℚ :=
  ((pred.zip label).countP (fun p => decide (p.1 = c ∧ p.2 = c)) : ℚ) /
    (label.count c : ℚ)

/-- The value `cm.mean()` of line 62: unweighted mean of per-class recalls. -/
def meanPerClassAcc (pred label : List ℕ) : ℚ :=
  ((confusionClasses pred label).map (classRecall pred label)).sum /
    ((confusionClasses pred label).length : ℚ)

/-- The function `count_acc(pred, label, metric)` (lines 55-62).
When `metric` matches neither branch the Python function falls off the
end and returns `None` — a normal return, not an exception — embedded
here as `none`. -/
def count_acc (pred label : List ℕ) (metric : String) : Option ℚ :=
  if metric = "accuracy" then
    some ((correctCount pred label : ℚ) / (pred.length : ℚ))
  else if metric = "mean per-class accuracy" then
    some (meanPerClassAcc pred label)
  else none

/-! ## test_classifier (finetune.py lines 122-156)

A batch of the data loader is embedded as the pair of the predicted
classes (`output.argmax(dim=1)`) and the integer targets for that batch;
the claims under verification concern only the accuracy value, so the
loss accumulation is not carried. -/

/-- The running total `num_data_points` (line 129): sum of batch sizes. -/
def num_data_points (batches : List (List ℕ × List ℕ)) : ℕ :=
  (batches.map (fun b => b.1.length)).sum

/-- The accuracy value returned by `test_classifier` (lines 122-156).
`none` embeds the `ZeroDivisionError` raised at `test_loss /=
num_data_points` (line 153) when the loader yields no samples (for the
per-class metric, `torch.cat` on an empty list raises even earlier).
In the `accuracy` branch `count_acc` is called with the literal string
`'accuracy'`, so its result is always a score; `getD 0` extracts it. -/
def test_classifier (metric : String) (batches : List (List ℕ × List ℕ)) : Option ℚ :=
  if num_data_points batches = 0 then none
  else if metric = "accuracy" then
    some ((batches.map
        (fun b => 100 * ((count_acc b.1 b.2 "accuracy").getD 0) * (b.1.length : ℚ))).sum /
      (num_data_points batches : ℚ))
  else if metric = "mean per-class accuracy" then
    some (100 * ((count_acc (batches.map Prod.fst).flatten
      (batches.map Prod.snd).flatten "mean per-class accuracy").getD 0))
  else
    some 0

/-! ## FinetuneModel.tune training loop (finetune.py lines 80-120)

The loop state of one training run is abstracted over a type `σ`
(model, optimizer and scheduler state) with a per-batch training step
`f : σ → β → σ` embedding the loop body of lines 99-116 (forward,
backward, `optimizer.step()`, `scheduler.step()`), and an evaluation
`eval : σ → ℚ` embedding the `test_classifier(test_loader)` call of
line 119.  The counter `step` counts optimizer steps exactly as in the
source. -/

/-- One pass of the `for data, targets in train_loader` loop
(lines 94-116).  Returns the step counter, the loop state and the
`running` flag: processing a batch first checks `step >= self.steps`
and, if so, clears `running` and breaks; otherwise it trains on the
batch and increments `step`. -/
def runEpoch (f : σ → β → σ) (S : ℕ) : List β → ℕ → σ → ℕ × σ × Bool
  | [], step, s => (step, s, true)
  | b :: bs, step, s =>
    if S ≤ step then (step, s, false)
    else runEpoch f S bs (step + 1) (f s b)

/-- The `while running` loop (lines 92-116), with explicit fuel bounding
the number of `while` iterations; `none` means the fuel was exhausted,
i.e. the loop ran that many full passes without clearing `running`.
Divergence of the Python loop is embedded as `none` for every fuel. -/
def tuneSteps (f : σ → β → σ) (S : ℕ) (l : List β) : ℕ → ℕ → σ → Option (ℕ × σ)
  | 0, _, _ => none
  | fuel + 1, step, s =>
    match runEpoch f S l step s with
    | (step', s', true) => tuneSteps f S l fuel step' s'
    | (step', s', false) => some (step', s')

/-- The `tune` method (lines 80-120): run the training loop from
`step = 0` and return the evaluation score of the resulting model
(line 119-120).  Fuel `S + 1` while-iterations suffice whenever the
loop terminates, as proved below. -/
def tune (f : σ → β → σ) (eval : σ → ℚ) (S : ℕ) (l : List β) (s : σ) : Option ℚ :=
  (tuneSteps f S l (S + 1) 0 s).map (fun p => eval p.2)

/-- First `r` batches of the infinite cyclic repetition of `l`:
the batch sequence consumed by a terminating run of the training loop. -/
def cycled (l : List β) (r : ℕ) : List β :=
  if _h : 0 < l.length ∧ l.length ≤ r then l ++ cycled l (r - l.length)
  else l.take r
termination_by r
decreasing_by omega

/-! ## FinetuneTester (finetune.py lines 159-242)

The coordinator state carries the fields of `FinetuneTester` that the
claims are about, plus an explicit record of every `FinetuneModel`
construction and every `tune` invocation (with the loaders passed).
The validation score returned by `finetuner.tune` for a candidate is
abstracted as an oracle `score : ℚ × ℚ → ℚ`. -/

/-- Backbone architectures selectable in lines 184-197 / 219-232. -/
inductive Arch
  | densenet121
  | resnet18
  | resnet50
  deriving DecidableEq, Repr

/-- The four data loaders held by `FinetuneTester`. -/
inductive Loader
  | train
  | val
  | trainval
  | test
  deriving DecidableEq, Repr

/-- Python's `needle in haystack` substring test on the model name. -/
def containsSub (needle : String) (hay : List Char) : Bool :=
  decide (needle.toList <:+: hay)

/-- The backbone-selection cascade (lines 184-197, identical in
219-232): architecture and the `feature_dim` assigned with it. -/
def archFor (name : List Char) : Arch × ℕ :=
  if containsSub "mimic-chexpert" name then (Arch.densenet121, 1024)
  else if containsSub "mimic-cxr" name then
    if containsSub "r18" name then (Arch.resnet18, 512)
    else (Arch.densenet121, 1024)
  else (Arch.resnet50, 2048)

/-- Python exceptions reachable from `validate` / `evaluate`, plus the
`ConfigurationError` named by the specification (which the source never
defines or raises; it is included so the comparison can be stated). -/
inductive PyErr
  | unboundLocal (name : String)
  | keyError (key : String)
  | configurationError
  deriving DecidableEq, Repr

/-- Reading a local variable: an `UnboundLocalError` unless the name is
among the locals assigned earlier in the function body. -/
def readLocal (locals : List String) (x : String) : Except PyErr Unit :=
  if x ∈ locals then Except.ok () else Except.error (PyErr.unboundLocal x)

/-- Locals of `validate` assigned before line 199 runs: `best_score`
(line 176) and the loop variables (line 177).  `model` is not among
them — it is only ever the assignment target of line 199 itself. -/
def validateLocals : List String := ["self", "best_score", "i", "lr", "wd"]

/-- Locals of `evaluate` assigned before line 234 runs: none beyond the
`self` parameter. -/
def evaluateLocals : List String := ["self"]

/-- State of a `FinetuneTester` (lines 160-173), restricted to what the
claims mention.  `best_params` starts as the empty dict `{}`, embedded
as `none`; `finetuners` counts `FinetuneModel` constructions and
`tuneCalls` records each `finetuner.tune` call with its candidate and
the loaders passed. -/
structure Tester where
  model_name : List Char
  feature_dim : ℕ
  backbone : Option Arch
  finetuners : ℕ
  tuneCalls : List ((ℚ × ℚ) × Loader × Loader)
  best_params : Option (ℚ × ℚ)
  deriving DecidableEq, Repr

/-- A freshly constructed tester (`__init__`, lines 160-173):
default `feature_dim = 2048`, `best_params = {}`. -/
def mkTester (name : List Char) : Tester :=
  ⟨name, 2048, none, 0, [], none⟩

/-- The backbone-loading block shared by `validate` (lines 184-197) and
`evaluate` (lines 219-232): sets `self.model` and `self.feature_dim`. -/
def backboneStep (t : Tester) : Tester :=
  { t with backbone := some (archFor t.model_name).1
           feature_dim := (archFor t.model_name).2 }

/-- The loop body of `validate` (lines 177-213) over the remaining grid,
threading the local `best_score`.  Each iteration: load the backbone
(184-197), execute line 199 — which reads the never-assigned local
`model` — then construct the `FinetuneModel` (202-203), call
`tune(train_loader, val_loader, lr, wd)` (204) and apply the
strictly-greater update of `best_params` (208-213).  A raised exception
stops the loop, with the `self` mutations made so far kept. -/
def validateLoop (score : ℚ × ℚ → ℚ) :
    List (ℚ × ℚ) → Tester → ℚ → Tester × Option PyErr
  | [], t, _ => (t, none)
  | (lr, wd) :: rest, t, best_score =>
    let t := backboneStep t
    match readLocal validateLocals "model" with
    | Except.error e => (t, some e)
    | Except.ok _ =>
      let t := { t with finetuners := t.finetuners + 1 }
      let val_acc := score (lr, wd)
      let t := { t with tuneCalls := t.tuneCalls ++ [((lr, wd), Loader.train, Loader.val)] }
      if best_score < val_acc then
        validateLoop score rest { t with best_params := some (lr, wd) } val_acc
      else
        validateLoop score rest t best_score

/-- The `validate` method (lines 175-213): `best_score = 0`, then the
grid loop. -/
def validate (score : ℚ × ℚ → ℚ) (grid : List (ℚ × ℚ)) (t : Tester) :
    Tester × Option PyErr :=
  validateLoop score grid t 0

/-- The `evaluate` method (lines 215-242): load the backbone (219-232),
execute line 234 — which reads the never-assigned local `model` —
then construct the `FinetuneModel` (237-238) and call
`tune(trainval_loader, test_loader, best_params['lr'],
best_params['wd'])` (239), where the subscripts raise `KeyError` on the
empty dict.  Returns the mutated state, the exception if any, and the
returned test score. -/
def evaluate (score : ℚ × ℚ → ℚ) (t : Tester) :
    Tester × Option PyErr × Option ℚ :=
  let t := backboneStep t
  match readLocal evaluateLocals "model" with
  | Except.error e => (t, some e, none)
  | Except.ok _ =>
    let t := { t with finetuners := t.finetuners + 1 }
    match t.best_params with
    | none => (t, some (PyErr.keyError "lr"), none)
    | some bp =>
      let t := { t with tuneCalls := t.tuneCalls ++ [(bp, Loader.trainval, Loader.test)] }
      (t, none, some (score bp))

/-! ## Theorems -/

/-- Helper: an `update` with nonzero resulting count succeeds, with the
fields written exactly as in lines 45-48. -/
theorem AverageMeter.update_eq (m : AverageMeter) (v : ℚ) (n : ℕ)
    (h : ¬ (m.count + n = 0)) :
    m.update v n = some ⟨v, (m.sum + v * (n : ℚ)) / ((m.count + n : ℕ) : ℚ),
      m.sum + v * (n : ℚ), m.count + n⟩ := by
  unfold AverageMeter.update
  exact if_neg h

/-- Helper: `applyUpdates` peels off a successful first update. -/
theorem applyUpdates_cons_of_update (m m1 : AverageMeter) (v : ℚ) (w : ℕ)
    (us : List (ℚ × ℕ)) (h : m.update v w = some m1) :
    applyUpdates m ((v, w) :: us) = applyUpdates m1 us := by
  unfold applyUpdates
  rw [List.foldl_cons]
  have : (some m).bind (fun m => m.update v w) = some m1 := h
  rw [this]

/-- Invariant of a chain of successful `update` calls: starting from a
meter with positive `count` whose `avg` field equals `sum / count`,
every update succeeds, `sum` and `count` accumulate the weighted totals
and `avg` stays `sum / count`. -/
theorem applyUpdates_inv (us : List (ℚ × ℕ)) :
    ∀ m : AverageMeter, 0 < m.count → m.avg = m.sum / (m.count : ℚ) →
      ∃ m', applyUpdates m us = some m' ∧
        m'.sum = m.sum + wsum us ∧ m'.count = m.count + wtot us ∧
        m'.avg = m'.sum / (m'.count : ℚ) := by
  induction us with
  | nil =>
    intro m h1 h2
    exact ⟨m, rfl, by simp [wsum], by simp [wtot], h2⟩
  | cons u rest ih =>
    intro m h1 h2
    obtain ⟨v, w⟩ := u
    have hc : ¬ (m.count + w = 0) := by omega
    have hstep := applyUpdates_cons_of_update m _ v w rest
      (AverageMeter.update_eq m v w hc)
    obtain ⟨m', hrun, hsum, hcount, havg⟩ :=
      ih ⟨v, (m.sum + v * (w : ℚ)) / ((m.count + w : ℕ) : ℚ),
        m.sum + v * (w : ℚ), m.count + w⟩ (by simp; omega) rfl
    refine ⟨m', hstep.trans hrun, ?_, ?_, havg⟩
    · simp only at hsum
      rw [hsum, wsum, wsum]
      simp [List.sum_cons]
      ring
    · simp only at hcount
      rw [hcount, wtot, wtot]
      simp [List.sum_cons]
      omega

/-- C9: after updates `(v1,w1),...,(vn,wn)` on a freshly reset meter,
with the first weight positive (so no division by zero occurs), every
update succeeds and the running average equals the weighted mean
`Σ(vi·wi)/Σwi`; moreover a further update with weight 0 succeeds and
leaves the running average unchanged. -/
theorem average_meter_weighted_mean (v : ℚ) (w : ℕ) (us : List (ℚ × ℕ))
    (hw : 0 < w) :
    ∃ m, applyUpdates AverageMeter.fresh ((v, w) :: us) = some m ∧
      m.avg = wsum ((v, w) :: us) / ((wtot ((v, w) :: us) : ℕ) : ℚ) ∧
      m.count = wtot ((v, w) :: us) ∧
      ∀ v', ∃ m', m.update v' 0 = some m' ∧ m'.avg = m.avg := by
  have hc : ¬ (AverageMeter.fresh.count + w = 0) := by
    simp [AverageMeter.fresh]; omega
  have hstep := applyUpdates_cons_of_update AverageMeter.fresh _ v w us
    (AverageMeter.update_eq AverageMeter.fresh v w hc)
  obtain ⟨m, hrun, hsum, hcount, havg⟩ :=
    applyUpdates_inv us ⟨v, (AverageMeter.fresh.sum + v * (w : ℚ)) /
        ((AverageMeter.fresh.count + w : ℕ) : ℚ),
      AverageMeter.fresh.sum + v * (w : ℚ), AverageMeter.fresh.count + w⟩
      (by simp [AverageMeter.fresh]; omega) rfl
  simp only [AverageMeter.fresh] at hsum hcount
  have hsum' : m.sum = wsum ((v, w) :: us) := by
    rw [hsum, wsum, wsum]; simp [List.sum_cons]
  have hcount' : m.count = wtot ((v, w) :: us) := by
    rw [hcount, wtot, wtot]; simp [List.sum_cons]
  refine ⟨m, hstep.trans hrun, ?_, hcount', ?_⟩
  · rw [havg, hsum', hcount']
  · intro v'
    have hm : 0 < m.count := by
      rw [hcount', wtot]; simp [List.sum_cons]; omega
    have hc' : ¬ (m.count + 0 = 0) := by omega
    refine ⟨_, AverageMeter.update_eq m v' 0 hc', ?_⟩
    simp [havg]

/-- Witness for C9 at a concrete run: updates `(3,2)` then `(6,1)` give
running average `12/3 = 4`, and a weight-0 update keeps it. -/
theorem average_meter_weighted_mean_witness :
    ∃ m, applyUpdates AverageMeter.fresh ((3, 2) :: [(6, 1)]) = some m ∧
      m.avg = wsum ((3, 2) :: [(6, 1)]) / ((wtot ((3, 2) :: [(6, 1)]) : ℕ) : ℚ) ∧
      m.count = wtot ((3, 2) :: [(6, 1)]) ∧
      ∀ v', ∃ m', m.update v' 0 = some m' ∧ m'.avg = m.avg :=
  average_meter_weighted_mean 3 2 [(6, 1)] (by decide)

/-- C3: on any non-empty grid, `validate` executes line 199
`model = model.to(args.device)`, whose right-hand side reads the local
`model` that was never assigned, so the whole call fails with an
unbound-local error after the backbone-loading block has run but before
any `FinetuneModel` is constructed or any `tune` call is made; and
`evaluate` fails the same way at line 234. -/
theorem validate_evaluate_unbound_local (score : ℚ × ℚ → ℚ) (lr wd : ℚ)
    (rest : List (ℚ × ℚ)) (t : Tester) :
    validate score ((lr, wd) :: rest) t =
      (backboneStep t, some (PyErr.unboundLocal "model")) ∧
    (backboneStep t).backbone = some (archFor t.model_name).1 ∧
    (backboneStep t).finetuners = t.finetuners ∧
    (backboneStep t).tuneCalls = t.tuneCalls ∧
    (backboneStep t).best_params = t.best_params ∧
    evaluate score t = (backboneStep t, some (PyErr.unboundLocal "model"), none) :=
  ⟨rfl, rfl, rfl, rfl, rfl, rfl⟩

/-- C1 (code bug): at the concrete grid `[(1/10, 0), (1/100, 0)]` whose
second candidate has the strictly highest validation score, `validate`
raises the unbound-local error of line 199 on the first candidate and
never records any best parameters, so the unique highest-scoring
candidate is not selected. -/
theorem validate_crashes_before_selection :
    (validate (fun c => if c = ((1 : ℚ)/100, 0) then 80 else 50)
        [((1 : ℚ)/10, 0), ((1 : ℚ)/100, 0)] (mkTester ['m'])).1.best_params
      = none ∧
    (validate (fun c => if c = ((1 : ℚ)/100, 0) then 80 else 50)
        [((1 : ℚ)/10, 0), ((1 : ℚ)/100, 0)] (mkTester ['m'])).2
      = some (PyErr.unboundLocal "model") :=
  ⟨rfl, rfl⟩

/-- C6 (code bug): on a tester whose `best_params` are set, `evaluate`
raises the unbound-local error of line 234 before reaching line 239, so
no `tune` call with any pair of loaders is ever made and no test score
is returned. -/
theorem evaluate_crashes_before_tune :
    (evaluate (fun _ => (42 : ℚ))
        { mkTester ['m'] with best_params := some (1, 0) }).2.1
      = some (PyErr.unboundLocal "model") ∧
    (evaluate (fun _ => (42 : ℚ))
        { mkTester ['m'] with best_params := some (1, 0) }).2.2 = none ∧
    (evaluate (fun _ => (42 : ℚ))
        { mkTester ['m'] with best_params := some (1, 0) }).1.tuneCalls = [] :=
  ⟨rfl, rfl, rfl⟩

/-- C7 counterexample: calling `evaluate` on a freshly constructed
tester (`best_params` never populated) fails with the unbound-local
error of line 234, which is not a `ConfigurationError`. -/
theorem evaluate_error_not_configuration :
    (evaluate (fun _ => (0 : ℚ)) (mkTester ['x'])).2.1
      = some (PyErr.unboundLocal "model") ∧
    (evaluate (fun _ => (0 : ℚ)) (mkTester ['x'])).2.1
      ≠ some PyErr.configurationError :=
  ⟨rfl, by decide⟩

/-- C7 amended: calling `evaluate` before `search` has populated
`best_params` does fail before producing a score, but with an
`UnboundLocalError` on the local `model` of line 234 — not with a
`ConfigurationError`. -/
theorem evaluate_fails_with_unbound_local (score : ℚ × ℚ → ℚ)
    (name : List Char) :
    (evaluate score (mkTester name)).2.1 = some (PyErr.unboundLocal "model") ∧
    (evaluate score (mkTester name)).2.2 = none ∧
    PyErr.unboundLocal "model" ≠ PyErr.configurationError :=
  ⟨rfl, rfl, by decide⟩

/-- C8 counterexample: `count_acc` with the unsupported metric string
`"precision"` returns Python `None` — a normal, non-error value — and
`test_classifier` silently returns the score 0 for it; no error of any
kind is produced. -/
theorem count_acc_invalid_metric_cex :
    count_acc [0] [1] "precision" = none ∧
    test_classifier "precision" [([0], [1])] = some 0 :=
  ⟨rfl, rfl⟩

/-- C8 amended: for every metric string other than the two supported
policies, `count_acc` falls off the end of the if/elif chain and
returns `None` without raising, and `test_classifier` (on a loader with
at least one sample) leaves its accuracy accumulator at 0 and returns
it; there is no UnsupportedMetric error and no fallback to another
policy. -/
theorem invalid_metric_silent (pred label : List ℕ) (m : String)
    (h1 : m ≠ "accuracy") (h2 : m ≠ "mean per-class accuracy") :
    count_acc pred label m = none ∧
    ∀ batches, ¬ (num_data_points batches = 0) →
      test_classifier m batches = some 0 := by
  constructor
  · simp [count_acc, h1, h2]
  · intro batches hb
    simp [test_classifier, h1, h2, hb]

/-- Witness for C8 amended at the metric string `"f1-score"`. -/
theorem invalid_metric_silent_witness :
    count_acc [0, 1] [0, 1] "f1-score" = none ∧
    test_classifier "f1-score" [([0, 1], [0, 1])] = some 0 := by
  have h := invalid_metric_silent [0, 1] [0, 1] "f1-score"
    (by decide) (by decide)
  exact ⟨h.1, h.2 [([0, 1], [0, 1])] (by decide)⟩

/-- Helper: closed form of one pass over the train loader.  A pass
starting at step counter `step` trains on the first
`min l.length (S - step)` batches, advancing the counter once per
batch, and clears the `running` flag exactly when a batch is reached
with the budget already met, i.e. when the loader holds more than
`S - step` batches. -/
theorem runEpoch_eq (f : σ → β → σ) (S : ℕ) :
    ∀ (l : List β) (step : ℕ) (s : σ),
      runEpoch f S l step s =
        (step + min l.length (S - step),
         List.foldl f s (l.take (min l.length (S - step))),
         decide (l.length ≤ S - step)) := by
  intro l
  induction l with
  | nil =>
    intro step s
    simp [runEpoch]
  | cons b bs ih =>
    intro step s
    rw [runEpoch]
    by_cases h : S ≤ step
    · rw [if_pos h]
      have h0 : S - step = 0 := by omega
      simp [h0]
    · rw [if_neg h, ih (step + 1) (f s b)]
      have hmin : min (bs.length + 1) (S - step) =
          min bs.length (S - (step + 1)) + 1 := by omega
      simp only [Prod.mk.injEq, List.length_cons]
      refine ⟨by omega, ?_, ?_⟩
      · rw [hmin, List.take_succ_cons, List.foldl_cons]
      · rw [decide_eq_decide]
        omega

/-- Helper: length of the cyclic batch sequence. -/
theorem cycled_length (l : List β) (hl : l ≠ []) :
    ∀ r, (cycled l r).length = r := by
  intro r
  induction r using Nat.strong_induction_on with
  | _ r ih =>
    have hpos : 0 < l.length := List.length_pos.mpr hl
    rw [cycled]
    by_cases h : 0 < l.length ∧ l.length ≤ r
    · rw [dif_pos h, List.length_append, ih (r - l.length) (by omega)]
      omega
    · rw [dif_neg h, List.length_take]
      omega

/-- Helper: a terminating run of the `while running` loop.  From any
epoch boundary with `step ≤ S` and `r = S - step` remaining budget, on
a non-empty loader and with more than `r` units of fuel, the loop stops
with the counter exactly at `S`, having trained on the next `r` batches
of the cyclic repetition of the loader. -/
theorem tuneSteps_run (f : σ → β → σ) (S : ℕ) (l : List β) (hl : l ≠ []) :
    ∀ r step s fuel, step ≤ S → S - step = r → r < fuel →
      tuneSteps f S l fuel step s = some (S, List.foldl f s (cycled l r)) := by
  intro r
  induction r using Nat.strong_induction_on with
  | _ r ih =>
    intro step s fuel hstep hr hfuel
    have hpos : 0 < l.length := List.length_pos.mpr hl
    obtain ⟨fuel, rfl⟩ : ∃ fuel', fuel = fuel' + 1 := ⟨fuel - 1, by omega⟩
    rw [tuneSteps, runEpoch_eq]
    by_cases hcase : l.length ≤ S - step
    · rw [decide_eq_true hcase]
      have hmin : min l.length (S - step) = l.length := by omega
      rw [hmin, List.take_length]
      have happ := ih (r - l.length) (by omega) (step + l.length)
        (List.foldl f s l) fuel (by omega) (by omega) (by omega)
      show tuneSteps f S l fuel (step + l.length) (List.foldl f s l) =
        some (S, List.foldl f s (cycled l r))
      rw [happ]
      have hcyc : cycled l r = l ++ cycled l (r - l.length) := by
        rw [cycled, dif_pos ⟨hpos, by omega⟩]
      rw [hcyc, List.foldl_append]
    · rw [decide_eq_false hcase]
      have hmin : min l.length (S - step) = r := by omega
      rw [hmin]
      show some (step + r, List.foldl f s (l.take r)) =
        some (S, List.foldl f s (cycled l r))
      have hcyc : cycled l r = l.take r := by
        rw [cycled, dif_neg]
        intro hcon
        omega
      rw [hcyc]
      have : step + r = S := by omega
      rw [this]

/-- C2: on a non-empty train loader and any step budget `S`, the
training loop of `tune` stops with the step counter exactly at `S`,
the model state is the fold of the per-batch step over the first `S`
batches of the cyclically repeated loader (so exactly `S` optimizer
steps are performed, wrapping mid-epoch as needed), `tune` returns the
evaluation score of that state, and with `S = 0` it returns the
evaluation score of the untouched initial model. -/
theorem tune_exact_steps (f : σ → β → σ) (eval : σ → ℚ) (S : ℕ)
    (l : List β) (s : σ) (hl : l ≠ []) :
    tuneSteps f S l (S + 1) 0 s = some (S, List.foldl f s (cycled l S)) ∧
    (cycled l S).length = S ∧
    tune f eval S l s = some (eval (List.foldl f s (cycled l S))) ∧
    tune f eval 0 l s = some (eval s) := by
  have h1 := tuneSteps_run f S l hl S 0 s (S + 1) (by omega) (by omega) (by omega)
  refine ⟨h1, cycled_length l hl S, ?_, ?_⟩
  · rw [tune, h1]
    rfl
  · have h0 := tuneSteps_run f 0 l hl 0 0 s 1 (by omega) (by omega) (by omega)
    have hcyc0 : cycled l 0 = [] := by
      rw [cycled, dif_neg]
      · exact List.take_zero l
      · intro hcon
        omega
    rw [tune, h0, hcyc0]
    rfl

/-- Witness for C2: budget 3 over the two-batch loader `[1, 2]` with an
additive step performs exactly 3 steps, cycling back for the third. -/
theorem tune_exact_steps_witness :
    tuneSteps (fun (a b : ℕ) => a + b) 3 [1, 2] 4 0 0 =
      some (3, List.foldl (fun a b => a + b) 0 (cycled [1, 2] 3)) ∧
    (cycled [1, 2] 3).length = 3 ∧
    tune (fun (a b : ℕ) => a + b) (fun a => (a : ℚ)) 3 [1, 2] 0 =
      some ((List.foldl (fun a b => a + b) 0 (cycled [1, 2] 3) : ℕ) : ℚ) ∧
    tune (fun (a b : ℕ) => a + b) (fun a => (a : ℚ)) 0 [1, 2] 0 =
      some ((0 : ℕ) : ℚ) :=
  tune_exact_steps (fun (a b : ℕ) => a + b) (fun (a : ℕ) => (a : ℚ)) 3 [1, 2] 0 (by decide)

/-- C10: on an empty train loader the `for` loop body never runs, so an
epoch returns with the `running` flag still set and the `while running`
loop never exits: for every step budget `S` (including 0) and every
amount of fuel, the loop fails to terminate, so a non-empty loader is a
necessary precondition for termination of `tune`. -/
theorem tune_diverges_on_empty_loader (f : σ → β → σ) (S : ℕ) :
    (∀ (step : ℕ) (s : σ), runEpoch f S ([] : List β) step s = (step, s, true)) ∧
    (∀ (fuel step : ℕ) (s : σ), tuneSteps f S ([] : List β) fuel step s = none) ∧
    (∀ (eval : σ → ℚ) (s : σ), tune f eval S ([] : List β) s = none) := by
  have h2 : ∀ (fuel step : ℕ) (s : σ),
      tuneSteps f S ([] : List β) fuel step s = none := by
    intro fuel
    induction fuel with
    | zero => intro step s; rfl
    | succ n ih =>
      intro step s
      rw [tuneSteps]
      exact ih step s
  refine ⟨fun step s => rfl, h2, fun eval s => ?_⟩
  rw [tune, h2]
  rfl

/-- Helper: correct-prediction counts add over concatenation when the
first parts have equal length. -/
theorem correctCount_append (p1 l1 p2 l2 : List ℕ) (h : p1.length = l1.length) :
    correctCount (p1 ++ p2) (l1 ++ l2) = correctCount p1 l1 + correctCount p2 l2 := by
  unfold correctCount
  rw [List.zip_append h, List.countP_append]

/-- Helper: the correct count over the concatenated loader equals the
sum of per-batch correct counts. -/
theorem correctCount_flatten (batches : List (List ℕ × List ℕ))
    (hlen : ∀ b ∈ batches, b.1.length = b.2.length) :
    correctCount (batches.map Prod.fst).flatten (batches.map Prod.snd).flatten
      = (batches.map (fun b => correctCount b.1 b.2)).sum := by
  induction batches with
  | nil => simp [correctCount]
  | cons b bs ih =>
    simp only [List.map_cons, List.flatten_cons, List.sum_cons]
    rw [correctCount_append _ _ _ _ (hlen b (by simp)),
      ih (fun x hx => hlen x (by simp [hx]))]

/-- Helper: the sample total of line 129 is the length of the
concatenated prediction sequence. -/
theorem num_data_points_eq (batches : List (List ℕ × List ℕ)) :
    ((batches.map Prod.fst).flatten).length = num_data_points batches := by
  rw [List.length_flatten, List.map_map]
  rfl

/-- Helper: the batch-size-weighted accuracy sum of lines 137-139
collapses to 100 times the total correct count, since each batch
contributes `100 · (correct_b / n_b) · n_b`. -/
theorem batch_weighted_sum (batches : List (List ℕ × List ℕ))
    (hne : ∀ b ∈ batches, b.1 ≠ []) :
    (batches.map
        (fun b => 100 * ((count_acc b.1 b.2 "accuracy").getD 0) * (b.1.length : ℚ))).sum
      = 100 * ((batches.map (fun b => correctCount b.1 b.2)).sum : ℚ) := by
  induction batches with
  | nil => simp
  | cons b bs ih =>
    simp only [List.map_cons, List.sum_cons]
    rw [ih (fun x hx => hne x (by simp [hx]))]
    have hn : ((b.1.length : ℕ) : ℚ) ≠ 0 := by
      have := List.length_pos.mpr (hne b (by simp))
      exact Nat.cast_ne_zero.mpr (by omega)
    have hacc : (count_acc b.1 b.2 "accuracy").getD 0
        = (correctCount b.1 b.2 : ℚ) / (b.1.length : ℚ) := by
      simp [count_acc]
    rw [hacc]
    push_cast
    field_simp
    ring

/-- C4: when every class `0..C-1` occurs in the labels (and the loader
is non-empty with matching prediction/label lengths per batch), the
`accuracy` score over the concatenated sequences is exactly
`100 · #correct / #total`, the batch-size-weighted aggregation of
`test_classifier` returns exactly the same value, and that value lies
in `[0, 100]`. -/
theorem accuracy_score_exact (C : ℕ) (batches : List (List ℕ × List ℕ))
    (hb : batches ≠ [])
    (hlen : ∀ b ∈ batches, b.1.length = b.2.length)
    (hne : ∀ b ∈ batches, b.1 ≠ [])
    (hcov : ∀ c, c < C → c ∈ (batches.map Prod.snd).flatten) :
    count_acc (batches.map Prod.fst).flatten (batches.map Prod.snd).flatten "accuracy"
      = some ((correctCount (batches.map Prod.fst).flatten (batches.map Prod.snd).flatten : ℚ)
          / (((batches.map Prod.fst).flatten).length : ℚ)) ∧
    test_classifier "accuracy" batches
      = some (100 * (correctCount (batches.map Prod.fst).flatten (batches.map Prod.snd).flatten : ℚ)
          / (((batches.map Prod.fst).flatten).length : ℚ)) ∧
    0 ≤ 100 * (correctCount (batches.map Prod.fst).flatten (batches.map Prod.snd).flatten : ℚ)
          / (((batches.map Prod.fst).flatten).length : ℚ) ∧
    100 * (correctCount (batches.map Prod.fst).flatten (batches.map Prod.snd).flatten : ℚ)
          / (((batches.map Prod.fst).flatten).length : ℚ) ≤ 100 := by
  have hnum : ¬ (num_data_points batches = 0) := by
    obtain ⟨b, bs, rfl⟩ := List.exists_cons_of_ne_nil hb
    have hb1 : 0 < b.1.length := List.length_pos.mpr (hne b (by simp))
    simp only [num_data_points, List.map_cons, List.sum_cons]
    omega
  have hPlen : ((batches.map Prod.fst).flatten).length = num_data_points batches :=
    num_data_points_eq batches
  have hPpos : (0 : ℚ) < (((batches.map Prod.fst).flatten).length : ℚ) := by
    rw [hPlen]
    exact_mod_cast Nat.pos_of_ne_zero hnum
  have hcorrect : (correctCount (batches.map Prod.fst).flatten
      (batches.map Prod.snd).flatten : ℕ) ≤ ((batches.map Prod.fst).flatten).length := by
    unfold correctCount
    calc ((batches.map Prod.fst).flatten.zip (batches.map Prod.snd).flatten).countP
          (fun p => decide (p.1 = p.2))
        ≤ ((batches.map Prod.fst).flatten.zip (batches.map Prod.snd).flatten).length :=
          List.countP_le_length _
      _ ≤ ((batches.map Prod.fst).flatten).length := by
          rw [List.length_zip]
          omega
  refine ⟨by simp [count_acc], ?_, ?_, ?_⟩
  · rw [test_classifier, if_neg hnum, if_pos rfl,
      batch_weighted_sum batches hne, ← correctCount_flatten batches hlen, hPlen]
  · positivity
  · rw [div_le_iff₀ hPpos]
    have : (correctCount (batches.map Prod.fst).flatten (batches.map Prod.snd).flatten : ℚ)
        ≤ (((batches.map Prod.fst).flatten).length : ℚ) := by exact_mod_cast hcorrect
    nlinarith

/-- Witness for C4 with `C = 2` and the loader
`[([0,1],[0,1]), ([1],[0])]`: 2 of 3 predictions are correct. -/
theorem accuracy_score_exact_witness :
    count_acc ([([0,1],[0,1]), ([1],[0])].map Prod.fst).flatten
        ([([0,1],[0,1]), ([1],[0])].map Prod.snd).flatten "accuracy"
      = some ((correctCount ([([0,1],[0,1]), ([1],[0])].map Prod.fst).flatten
            (([([0,1],[0,1]), ([1],[0])]).map Prod.snd).flatten : ℚ)
          / ((([([0,1],[0,1]), ([1],[0])].map Prod.fst).flatten).length : ℚ)) ∧
    test_classifier "accuracy" [([0,1],[0,1]), ([1],[0])]
      = some (100 * (correctCount ([([0,1],[0,1]), ([1],[0])].map Prod.fst).flatten
            (([([0,1],[0,1]), ([1],[0])]).map Prod.snd).flatten : ℚ)
          / ((([([0,1],[0,1]), ([1],[0])].map Prod.fst).flatten).length : ℚ)) ∧
    0 ≤ 100 * (correctCount ([([0,1],[0,1]), ([1],[0])].map Prod.fst).flatten
            (([([0,1],[0,1]), ([1],[0])]).map Prod.snd).flatten : ℚ)
          / ((([([0,1],[0,1]), ([1],[0])].map Prod.fst).flatten).length : ℚ) ∧
    100 * (correctCount ([([0,1],[0,1]), ([1],[0])].map Prod.fst).flatten
            (([([0,1],[0,1]), ([1],[0])]).map Prod.snd).flatten : ℚ)
          / ((([([0,1],[0,1]), ([1],[0])].map Prod.fst).flatten).length : ℚ) ≤ 100 :=
  accuracy_score_exact 2 [([0,1],[0,1]), ([1],[0])]
    (by decide) (by decide) (by decide) (by decide)

/-- Helper: the class list is non-empty whenever the labels are. -/
theorem confusionClasses_ne_nil (pred label : List ℕ) (hne : label ≠ []) :
    confusionClasses pred label ≠ [] := by
  intro h
  apply hne
  have := (List.dedup_eq_nil (label ++ pred)).mp h
  exact (List.append_eq_nil.mp this).1

/-- C5: under the hypothesis that every class present has at least one
true instance, the `mean per-class accuracy` value is exactly the
unweighted mean of the per-class recalls of the confusion matrix; with
perfect recall on every class the 100-scaled score of line 151 is
exactly 100, with zero recall on every class it is exactly 0; and
`test_classifier` computes exactly `100 ×` this metric once over the
concatenation of all batches. -/
theorem mean_per_class_accuracy_score (pred label : List ℕ)
    (_hlen : pred.length = label.length) (hne : label ≠ [])
    (_hcov : ∀ c ∈ confusionClasses pred label, 0 < label.count c) :
    count_acc pred label "mean per-class accuracy"
      = some (((confusionClasses pred label).map (classRecall pred label)).sum /
          ((confusionClasses pred label).length : ℚ)) ∧
    ((∀ c ∈ confusionClasses pred label, classRecall pred label c = 1) →
      100 * meanPerClassAcc pred label = 100) ∧
    ((∀ c ∈ confusionClasses pred label, classRecall pred label c = 0) →
      100 * meanPerClassAcc pred label = 0) ∧
    (∀ batches : List (List ℕ × List ℕ),
      (batches.map Prod.fst).flatten = pred →
      (batches.map Prod.snd).flatten = label →
      ¬ (num_data_points batches = 0) →
      test_classifier "mean per-class accuracy" batches
        = some (100 * meanPerClassAcc pred label)) := by
  have hcls : confusionClasses pred label ≠ [] := confusionClasses_ne_nil pred label hne
  have hclen : ((confusionClasses pred label).length : ℚ) ≠ 0 := by
    have := List.length_pos.mpr hcls
    exact Nat.cast_ne_zero.mpr (by omega)
  refine ⟨by simp [count_acc, meanPerClassAcc], ?_, ?_, ?_⟩
  · intro hall
    have hmap : (confusionClasses pred label).map (classRecall pred label)
        = List.replicate (confusionClasses pred label).length (1 : ℚ) := by
      rw [List.map_congr_left hall]
      exact List.map_const _ 1
    rw [meanPerClassAcc, hmap, List.sum_replicate, nsmul_eq_mul, mul_one,
      div_self hclen, mul_one]
  · intro hall
    have hmap : (confusionClasses pred label).map (classRecall pred label)
        = List.replicate (confusionClasses pred label).length (0 : ℚ) := by
      rw [List.map_congr_left hall]
      exact List.map_const _ 0
    rw [meanPerClassAcc, hmap, List.sum_replicate, nsmul_eq_mul, mul_zero,
      zero_div, mul_zero]
  · intro batches hp hl hnum
    rw [test_classifier, if_neg hnum, hp, hl]
    have hstr : ¬ (("mean per-class accuracy" : String) = "accuracy") := by decide
    rw [if_neg hstr, if_pos rfl]
    simp [count_acc]

/-- Witness for C5 on `pred = [0,1,1], label = [0,1,0]` via the batch
list `[([0,1],[0,1]), ([1],[0])]`: both classes have true instances. -/
theorem mean_per_class_accuracy_score_witness :
    count_acc [0,1,1] [0,1,0] "mean per-class accuracy"
      = some (((confusionClasses [0,1,1] [0,1,0]).map (classRecall [0,1,1] [0,1,0])).sum /
          ((confusionClasses [0,1,1] [0,1,0]).length : ℚ)) ∧
    ((∀ c ∈ confusionClasses [0,1,1] [0,1,0], classRecall [0,1,1] [0,1,0] c = 1) →
      100 * meanPerClassAcc [0,1,1] [0,1,0] = 100) ∧
    ((∀ c ∈ confusionClasses [0,1,1] [0,1,0], classRecall [0,1,1] [0,1,0] c = 0) →
      100 * meanPerClassAcc [0,1,1] [0,1,0] = 0) ∧
    (∀ batches : List (List ℕ × List ℕ),
      (batches.map Prod.fst).flatten = [0,1,1] →
      (batches.map Prod.snd).flatten = [0,1,0] →
      ¬ (num_data_points batches = 0) →
      test_classifier "mean per-class accuracy" batches
        = some (100 * meanPerClassAcc [0,1,1] [0,1,0])) :=
  mean_per_class_accuracy_score [0,1,1] [0,1,0] (by decide) (by decide) (by decide)
